import Mathlib

/-!
Verification of `FullDuplexHfpLoopback` (OboeTester HFP loopback engine).

Shallow embedding of `FullDuplexHfpLoopback.cpp` / `.h`.  Samples are modelled
as rationals: the engine only copies sample values (and zero-fills), it never
performs floating-point arithmetic on them, except in the peak detectors which
are external to the fragment and modelled from the spec.  Interleaved sample
memory (`mPlaybackBuffer`, the callback's `inputData`) is a flat `List ℚ`;
produced output and recorded history are lists of frames (`List (List ℚ)`),
one inner list per frame, matching the per-frame pointer advances in the code.
Machine integers are modelled as `ℕ`/`ℤ`; no claim hinges on 32/64-bit
overflow behaviour.
-/

namespace FullDuplexHfpLoopback

/-- One all-zero output frame of `outCh` samples, as produced by the
`memset(..., 0, ...)` calls in `onBothStreamsReadyFloat`. -/
def silenceFrame (outCh : ℕ) : List ℚ := List.replicate outCh 0

/-- The per-frame copy loop of `onBothStreamsReadyFloat` (lines 113-118):
destination channel `ch` reads `mPlaybackBuffer[pos * cC + ch % cC]`.
Out-of-range reads (impossible under the loaded-clip invariant
`buf.length = nF * cC`) default to 0. -/
def frameFromClip (buf : List ℚ) (cC outCh pos : ℕ) : List ℚ :=
  (List.range outCh).map (fun ch => buf.getD (pos * cC + ch % cC) 0)

/-- Result of the playback `while` loop of `onBothStreamsReadyFloat`:
the output frames written, the final `mPlaybackPosition`, the total
increment of `mPlayedFrameCount`, and the frames passed to
`mPlayedRecording->write`. -/
structure PlayResult where
  frames : List (List ℚ)
  pos : ℕ
  played : ℕ
  recorded : List (List ℚ)
deriving DecidableEq, Repr

/-- The playback `while (framesWritten < numOutputFrames)` loop
(lines 100-129), recursing on the number of frames still to write.
Per iteration: if the cursor is past the clip end, either wrap to 0 and
fall through to the copy (loop enabled) or zero-fill the rest of the
request without advancing the cursor (loop disabled); otherwise copy one
channel-converted frame, record it, and advance cursor and counters. -/
def playLoop (buf : List ℚ) (nF cC outCh : ℕ) (loop : Bool) :
    ℕ → ℕ → PlayResult
  | pos, 0 => ⟨[], pos, 0, []⟩
  | pos, k + 1 =>
    if pos < nF then
      let f := frameFromClip buf cC outCh pos
      let r := playLoop buf nF cC outCh loop (pos + 1) k
      ⟨f :: r.frames, r.pos, r.played + 1, f :: r.recorded⟩
    else if loop then
      -- the source wraps the cursor to 0 and falls through to the copy
      -- within the same iteration, then advances the cursor to 1
      let f := frameFromClip buf cC outCh 0
      let r := playLoop buf nF cC outCh loop 1 k
      ⟨f :: r.frames, r.pos, r.played + 1, f :: r.recorded⟩
    else
      ⟨List.replicate (k + 1) (silenceFrame outCh), pos, 0, []⟩

/-- One input frame as read from the interleaved input block at sample
offset `base` (lines 134-145): channel `ch` is `inputData[base + ch]`. -/
def inputFrame (inputData : List ℚ) (icc base : ℕ) : List ℚ :=
  (List.range icc).map (fun ch => inputData.getD (base + ch) 0)

/-- The sequence of frames passed to `mRecordedRecording->write`, one per
input frame, advancing the read pointer by `icc` samples each time. -/
def inputFrames (inputData : List ℚ) (icc : ℕ) : ℕ → ℕ → List (List ℚ)
  | _base, 0 => []
  | base, k + 1 =>
      inputFrame inputData icc base :: inputFrames inputData icc (base + icc) k

/-- Modelled from the spec: the decay factor of the external `PeakDetector`
(its source is outside this fragment).  The spec leaves the multiplicative
decay constant as an implementation choice; we fix one in `[0, 1)`. -/
def peakDecay : ℚ := 255 / 256

/-- Modelled from the spec: `PeakDetector::process` — the level is replaced
by `|sample|` if larger, otherwise decayed multiplicatively toward 0. -/
def peakProcess (level sample : ℚ) : ℚ :=
  if level < |sample| then |sample| else level * peakDecay

/-- The per-channel peak-update loop of one input frame (lines 141-143):
`for (ch = 0; ch < inputChannelCount && ch < mNumInputChannels; ch++)`,
walking the detector array (given as the list of levels) with index `ch`. -/
def peakProcessFrame (inputData : List ℚ) (base icc nic : ℕ) :
    ℕ → List ℚ → List ℚ
  | _ch, [] => []
  | ch, l :: ls =>
      (if ch < icc ∧ ch < nic then peakProcess l (inputData.getD (base + ch) 0)
       else l)
        :: peakProcessFrame inputData base icc nic (ch + 1) ls

/-- The detector levels after processing `numInputFrames` input frames,
starting at sample offset `base`. -/
def processPeaks (inputData : List ℚ) (icc nic : ℕ) :
    ℕ → ℕ → List ℚ → List ℚ
  | _base, 0, levels => levels
  | base, k + 1, levels =>
      processPeaks inputData icc nic (base + icc) k
        (peakProcessFrame inputData base icc nic 0 levels)

/-- Modelled from the spec: `MultiChannelRecording::write` (external to this
fragment) appends frames to the bounded history; capacity and the
stop-vs-evict overflow policy are abstracted away as the full append-only
history, which is all the claims inspect. -/
def recordingWrite (rec frames : List (List ℚ)) : List (List ℚ) :=
  rec ++ frames

/-- State of a `FullDuplexHfpLoopback` object, together with the negotiated
properties of the external output/input streams read via
`getOutputStream()` / `getInputStream()`.  `Option` models the
`unique_ptr`s that are null before `start()`; the peak-detector array is
its list of levels. -/
structure HfpState where
  outputChannelCount : ℕ
  outputSampleRate : ℕ
  inputChannelCount : ℕ
  inputSampleRate : ℕ
  playbackBuffer : List ℚ
  playbackPosition : ℕ
  playbackNumFrames : ℕ
  playbackChannelCount : ℕ
  playbackSampleRate : ℤ
  loopPlayback : Bool
  playedFrameCount : ℕ
  recordedFrameCount : ℕ
  playedRecording : Option (List (List ℚ))
  recordedRecording : Option (List (List ℚ))
  numInputChannels : ℕ
  peakDetectors : Option (List ℚ)
deriving DecidableEq, Repr

/-- A freshly constructed `FullDuplexHfpLoopback`, with the member
initializers of the header (lines 87-101): empty clip, cursor 0, loop
playback defaulting to `true`, counters 0, recordings and detectors null. -/
def initHfpState (occ osr icc isr : ℕ) : HfpState where
  outputChannelCount := occ
  outputSampleRate := osr
  inputChannelCount := icc
  inputSampleRate := isr
  playbackBuffer := []
  playbackPosition := 0
  playbackNumFrames := 0
  playbackChannelCount := 1
  playbackSampleRate := 48000
  loopPlayback := true
  playedFrameCount := 0
  recordedFrameCount := 0
  playedRecording := none
  recordedRecording := none
  numInputChannels := 0
  peakDetectors := none

/-- Embeds `FullDuplexHfpLoopback::start` (lines 22-49): resets cursor and
counters, allocates both recordings and one peak detector per input
channel.  The delegated `FullDuplexStreamWithConversion::start()` is
external stream plumbing. -/
def start (s : HfpState) : HfpState :=
  { s with
    playbackPosition := 0
    playedFrameCount := 0
    recordedFrameCount := 0
    playedRecording := some []
    recordedRecording := some []
    numInputChannels := s.inputChannelCount
    peakDetectors := some (List.replicate s.inputChannelCount 0) }

/-- Embeds `FullDuplexHfpLoopback::getPeakLevel` (lines 51-60): `-1.0` before
`start()` (null detector array), `-2.0` for an index outside
`[0, mNumInputChannels)`, otherwise the detector's level. -/
def getPeakLevel (s : HfpState) (index : ℤ) : ℚ :=
  match s.peakDetectors with
  | none => -1
  | some levels =>
      if index < 0 ∨ (s.numInputChannels : ℤ) ≤ index then -2
      else levels.getD index.toNat 0

/-- Embeds `FullDuplexHfpLoopback::loadAudioData` (lines 62-81): rejects a null
pointer or non-positive frame/channel count with `-1`; otherwise copies
`numFrames * channelCount` samples into the playback buffer, sets the clip
shape, resets the cursor to 0 and returns 0. -/
def loadAudioData (s : HfpState) (audioData : Option (List ℚ))
    (numFrames channelCount sampleRate : ℤ) : ℤ × HfpState :=
  if audioData = none ∨ numFrames ≤ 0 ∨ channelCount ≤ 0 then
    (-1, s)
  else
    let data := audioData.getD []
    let totalSamples := numFrames.toNat * channelCount.toNat
    (0, { s with
      playbackBuffer := (List.range totalSamples).map (fun i => data.getD i 0)
      playbackNumFrames := numFrames.toNat
      playbackChannelCount := channelCount.toNat
      playbackSampleRate := sampleRate
      playbackPosition := 0 })

/-- Embeds `FullDuplexHfpLoopback::setLoopPlayback` (header lines 66-68). -/
def setLoopPlayback (s : HfpState) (loop : Bool) : HfpState :=
  { s with loopPlayback := loop }

/-- The input half of `onBothStreamsReadyFloat` (lines 132-147): per input
frame, append it to the recorded recording (when allocated), feed each
channel's sample to its peak detector (when allocated — a null array is
never dereferenced since `mNumInputChannels` is 0 before `start()`), and
bump `mRecordedFrameCount`. -/
def processInputPhase (s : HfpState) (inputData : List ℚ)
    (numInputFrames : ℕ) : HfpState :=
  { s with
    recordedRecording := s.recordedRecording.map
      (recordingWrite · (inputFrames inputData s.inputChannelCount 0 numInputFrames))
    recordedFrameCount := s.recordedFrameCount + numInputFrames
    peakDetectors := s.peakDetectors.map
      (processPeaks inputData s.inputChannelCount s.numInputChannels 0 numInputFrames) }

/-- Embeds `FullDuplexHfpLoopback::onBothStreamsReadyFloat` (lines 83-150).
Returns the output frames written into `outputData` and the new state;
the C++ return value is the constant `DataCallbackResult::Continue`.
If no clip is loaded the whole output block is zero-filled (no recording
write, no counter update); otherwise the playback loop runs, then input
processing. -/
def onBothStreamsReadyFloat (s : HfpState) (inputData : List ℚ)
    (numInputFrames numOutputFrames : ℕ) : List (List ℚ) × HfpState :=
  if s.playbackBuffer = [] ∨ s.playbackNumFrames = 0 then
    (List.replicate numOutputFrames (silenceFrame s.outputChannelCount),
     processInputPhase s inputData numInputFrames)
  else
    let r := playLoop s.playbackBuffer s.playbackNumFrames
               s.playbackChannelCount s.outputChannelCount
               s.loopPlayback s.playbackPosition numOutputFrames
    (r.frames,
     processInputPhase
       { s with
         playbackPosition := r.pos
         playedFrameCount := s.playedFrameCount + r.played
         playedRecording := s.playedRecording.map (recordingWrite · r.recorded) }
       inputData numInputFrames)

/-- A sequence of callback invocations, each an
`(inputData, numInputFrames, numOutputFrames)` triple, threaded through
the state. -/
def runCallbacks (s : HfpState) : List (List ℚ × ℕ × ℕ) → HfpState
  | [] => s
  | c :: cs => runCallbacks (onBothStreamsReadyFloat s c.1 c.2.1 c.2.2).2 cs

/-- A started 2-channel/48000 Hz session with no clip loaded. -/
def startedStereo : HfpState := start (initHfpState 2 48000 2 48000)

/-- The end-to-end scenario state: started 2ch/48000 session with a
10-frame, 1-channel clip of constant value `1/2` loaded (loop playback at
its default `true`). -/
def c4Loaded : HfpState :=
  (loadAudioData (start (initHfpState 2 48000 2 48000))
    (some (List.replicate 10 (1/2 : ℚ))) 10 1 48000).2

/-- A started mono session with a 2-frame mono clip `[3, 7]` loaded and
`setLoopPlayback` never called. -/
def monoClipState : HfpState :=
  (loadAudioData (start (initHfpState 1 48000 1 48000))
    (some [3, 7]) 2 1 48000).2

/-- A started mono session with a 1-frame clip `[1]` loaded and loop
playback disabled. -/
def noLoopClipState : HfpState :=
  setLoopPlayback
    ((loadAudioData (start (initHfpState 1 48000 1 48000))
      (some [1]) 1 1 48000).2) false

/-- State `noLoopClipState` after one callback that consumed the whole clip:
loop playback is off and the cursor sits at the clip end. -/
def endedState : HfpState :=
  (onBothStreamsReadyFloat noLoopClipState [] 0 2).2

/-- Invariant carried across callbacks for the peak-level claims: the
detector-count field equals the input channel count and the detector array
is allocated with all levels non-negative. -/
def DetectorsOK (icc : ℕ) (s : HfpState) : Prop :=
  s.numInputChannels = icc ∧ s.inputChannelCount = icc ∧
    ∃ ls, s.peakDetectors = some ls ∧ ∀ y ∈ ls, 0 ≤ y

/-- Invariant for the loop-disabled "ended" claims: looping is off and the
cursor is at or past the clip end; the clip shape and the output channel
count are remembered so silence frames can be described. -/
def EndedOK (s0 s : HfpState) : Prop :=
  s.loopPlayback = false ∧ s.playbackNumFrames ≤ s.playbackPosition ∧
    s.playbackPosition = s0.playbackPosition ∧
    s.playbackNumFrames = s0.playbackNumFrames ∧
    s.playbackBuffer = s0.playbackBuffer ∧
    s.outputChannelCount = s0.outputChannelCount

theorem playLoop_played_le (buf : List ℚ) (nF cC outCh : ℕ) (loop : Bool) :
    ∀ n pos, (playLoop buf nF cC outCh loop pos n).played ≤ n := by
  intro n
  induction n with
  | zero => intro pos; simp [playLoop]
  | succ k ih =>
    intro pos
    by_cases hp : pos < nF
    · simpa [playLoop, hp] using ih (pos + 1)
    · by_cases hl : loop = true
      · simpa [playLoop, hp, hl] using ih 1
      · simp [playLoop, hp, hl]

theorem playLoop_played_loopT (buf : List ℚ) (nF cC outCh : ℕ) :
    ∀ n pos, (playLoop buf nF cC outCh true pos n).played = n := by
  intro n
  induction n with
  | zero => intro pos; simp [playLoop]
  | succ k ih =>
    intro pos
    by_cases hp : pos < nF
    · simpa [playLoop, hp] using ih (pos + 1)
    · simpa [playLoop, hp] using ih 1

theorem playLoop_recorded_loopT (buf : List ℚ) (nF cC outCh : ℕ) :
    ∀ n pos,
      (playLoop buf nF cC outCh true pos n).recorded
        = (playLoop buf nF cC outCh true pos n).frames := by
  intro n
  induction n with
  | zero => intro pos; simp [playLoop]
  | succ k ih =>
    intro pos
    by_cases hp : pos < nF
    · simpa [playLoop, hp] using ih (pos + 1)
    · simpa [playLoop, hp] using ih 1

theorem playLoop_ended (buf : List ℚ) (nF cC outCh : ℕ) (pos n : ℕ)
    (hp : nF ≤ pos) :
    playLoop buf nF cC outCh false pos n
      = ⟨List.replicate n (silenceFrame outCh), pos, 0, []⟩ := by
  cases n with
  | zero => simp [playLoop]
  | succ k => simp [playLoop, Nat.not_lt.mpr hp]

theorem playLoop_pos_formula (buf : List ℚ) (nF cC outCh : ℕ)
    (hn : 1 ≤ nF) :
    ∀ n pos, pos ≤ nF →
      (playLoop buf nF cC outCh true pos (n + 1)).pos
        = (pos % nF + n) % nF + 1 := by
  intro n
  induction n with
  | zero =>
    intro pos hpos
    by_cases hp : pos < nF
    · simp [playLoop, hp, Nat.mod_eq_of_lt hp]
    · have hpe : pos = nF := le_antisymm hpos (Nat.not_lt.mp hp)
      simp [playLoop, hp, hpe]
  | succ m ih =>
    intro pos hpos
    by_cases hp : pos < nF
    · have h1 : (playLoop buf nF cC outCh true (pos + 1) (m + 1)).pos
          = ((pos + 1) % nF + m) % nF + 1 := ih (pos + 1) hp
      have h2 : (playLoop buf nF cC outCh true pos (m + 1 + 1)).pos
          = (playLoop buf nF cC outCh true (pos + 1) (m + 1)).pos := by
        simp [playLoop, hp]
      rw [h2, h1, Nat.mod_add_mod, Nat.mod_eq_of_lt hp]
      ring_nf
    · have hpe : pos = nF := le_antisymm hpos (Nat.not_lt.mp hp)
      have h1 : (playLoop buf nF cC outCh true 1 (m + 1)).pos
          = (1 % nF + m) % nF + 1 := ih 1 hn
      have h2 : (playLoop buf nF cC outCh true pos (m + 1 + 1)).pos
          = (playLoop buf nF cC outCh true 1 (m + 1)).pos := by
        simp [playLoop, hp]
      rw [h2, h1, Nat.mod_add_mod, hpe, Nat.mod_self]
      ring_nf

theorem map_range_getD (l : List ℚ) :
    (List.range l.length).map (fun i => l.getD i 0) = l := by
  apply List.ext_getElem
  · simp
  · intro i h1 h2
    simp [List.getD_eq_getElem?_getD, List.getElem?_eq_getElem h2]

theorem onBoth_const (s : HfpState) (inputData : List ℚ) (M N : ℕ) :
    (onBothStreamsReadyFloat s inputData M N).2.outputChannelCount
        = s.outputChannelCount ∧
    (onBothStreamsReadyFloat s inputData M N).2.inputChannelCount
        = s.inputChannelCount ∧
    (onBothStreamsReadyFloat s inputData M N).2.numInputChannels
        = s.numInputChannels ∧
    (onBothStreamsReadyFloat s inputData M N).2.loopPlayback
        = s.loopPlayback ∧
    (onBothStreamsReadyFloat s inputData M N).2.playbackBuffer
        = s.playbackBuffer ∧
    (onBothStreamsReadyFloat s inputData M N).2.playbackNumFrames
        = s.playbackNumFrames ∧
    (onBothStreamsReadyFloat s inputData M N).2.playbackChannelCount
        = s.playbackChannelCount := by
  unfold onBothStreamsReadyFloat processInputPhase
  split <;> simp

theorem onBoth_recordedFrameCount (s : HfpState) (inputData : List ℚ)
    (M N : ℕ) :
    (onBothStreamsReadyFloat s inputData M N).2.recordedFrameCount
      = s.recordedFrameCount + M := by
  unfold onBothStreamsReadyFloat processInputPhase
  split <;> simp

theorem onBoth_detectors (s : HfpState) (inputData : List ℚ) (M N : ℕ) :
    (onBothStreamsReadyFloat s inputData M N).2.peakDetectors
      = s.peakDetectors.map
          (processPeaks inputData s.inputChannelCount s.numInputChannels 0 M) := by
  unfold onBothStreamsReadyFloat processInputPhase
  split <;> simp

theorem onBoth_playedFrameCount_silence (s : HfpState) (inputData : List ℚ)
    (M N : ℕ) (h : s.playbackBuffer = [] ∨ s.playbackNumFrames = 0) :
    (onBothStreamsReadyFloat s inputData M N).2.playedFrameCount
      = s.playedFrameCount := by
  unfold onBothStreamsReadyFloat processInputPhase
  rw [if_pos h]

theorem onBoth_playedFrameCount_clip (s : HfpState) (inputData : List ℚ)
    (M N : ℕ) (hb : s.playbackBuffer ≠ []) (hf : s.playbackNumFrames ≠ 0) :
    (onBothStreamsReadyFloat s inputData M N).2.playedFrameCount
      = s.playedFrameCount
        + (playLoop s.playbackBuffer s.playbackNumFrames
            s.playbackChannelCount s.outputChannelCount
            s.loopPlayback s.playbackPosition N).played := by
  unfold onBothStreamsReadyFloat processInputPhase
  rw [if_neg (by simp [hb, hf])]

theorem onBoth_position_clip (s : HfpState) (inputData : List ℚ)
    (M N : ℕ) (hb : s.playbackBuffer ≠ []) (hf : s.playbackNumFrames ≠ 0) :
    (onBothStreamsReadyFloat s inputData M N).2.playbackPosition
      = (playLoop s.playbackBuffer s.playbackNumFrames
          s.playbackChannelCount s.outputChannelCount
          s.loopPlayback s.playbackPosition N).pos := by
  unfold onBothStreamsReadyFloat processInputPhase
  rw [if_neg (by simp [hb, hf])]

theorem onBoth_played_mono (s : HfpState) (inputData : List ℚ) (M N : ℕ) :
    s.playedFrameCount
        ≤ (onBothStreamsReadyFloat s inputData M N).2.playedFrameCount ∧
    (onBothStreamsReadyFloat s inputData M N).2.playedFrameCount
        ≤ s.playedFrameCount + N := by
  by_cases h : s.playbackBuffer = [] ∨ s.playbackNumFrames = 0
  · rw [onBoth_playedFrameCount_silence s inputData M N h]
    exact ⟨le_refl _, Nat.le_add_right _ _⟩
  · push_neg at h
    rw [onBoth_playedFrameCount_clip s inputData M N h.1 h.2]
    exact ⟨Nat.le_add_right _ _,
      Nat.add_le_add_left (playLoop_played_le _ _ _ _ _ N _) _⟩

theorem peakProcess_nonneg (l x : ℚ) (h : 0 ≤ l) : 0 ≤ peakProcess l x := by
  unfold peakProcess
  split
  · exact abs_nonneg x
  · exact mul_nonneg h (by norm_num [peakDecay])

theorem peakProcessFrame_nonneg (inputData : List ℚ) (base icc nic : ℕ) :
    ∀ (levels : List ℚ) (ch : ℕ), (∀ y ∈ levels, 0 ≤ y) →
      ∀ y ∈ peakProcessFrame inputData base icc nic ch levels, 0 ≤ y := by
  intro levels
  induction levels with
  | nil => intro ch _ y hy; simp [peakProcessFrame] at hy
  | cons l ls ih =>
    intro ch h y hy
    simp only [peakProcessFrame, List.mem_cons] at hy
    rcases hy with hy | hy
    · subst hy
      split
      · exact peakProcess_nonneg _ _ (h l (by simp))
      · exact h l (by simp)
    · exact ih (ch + 1) (fun z hz => h z (by simp [hz])) y hy

theorem processPeaks_nonneg (inputData : List ℚ) (icc nic : ℕ) :
    ∀ (n base : ℕ) (levels : List ℚ), (∀ y ∈ levels, 0 ≤ y) →
      ∀ y ∈ processPeaks inputData icc nic base n levels, 0 ≤ y := by
  intro n
  induction n with
  | zero => intro base levels h y hy; simpa [processPeaks] using h y hy
  | succ k ih =>
    intro base levels h y hy
    simp only [processPeaks] at hy
    exact ih (base + icc) _
      (peakProcessFrame_nonneg inputData base icc nic levels 0 h) y hy

theorem getD_nonneg :
    ∀ (ls : List ℚ) (j : ℕ), (∀ y ∈ ls, 0 ≤ y) → 0 ≤ ls.getD j 0
  | [], _, _ => le_refl 0
  | l :: _, 0, h => h l (by simp)
  | _ :: ls, j + 1, h => getD_nonneg ls j (fun y hy => h y (by simp [hy]))

theorem detectorsOK_step (icc : ℕ) (s : HfpState) (inputData : List ℚ)
    (M N : ℕ) (h : DetectorsOK icc s) :
    DetectorsOK icc (onBothStreamsReadyFloat s inputData M N).2 := by
  obtain ⟨hn, hi, ls, hls, hnn⟩ := h
  obtain ⟨-, h2, h3, -⟩ := onBoth_const s inputData M N
  refine ⟨h3.trans hn, h2.trans hi, ?_⟩
  refine ⟨processPeaks inputData s.inputChannelCount s.numInputChannels 0 M ls,
    ?_, ?_⟩
  · rw [onBoth_detectors, hls]; rfl
  · exact processPeaks_nonneg inputData s.inputChannelCount s.numInputChannels
      M 0 ls hnn

theorem detectorsOK_run (icc : ℕ) :
    ∀ (cs : List (List ℚ × ℕ × ℕ)) (s : HfpState), DetectorsOK icc s →
      DetectorsOK icc (runCallbacks s cs) := by
  intro cs
  induction cs with
  | nil => intro s h; exact h
  | cons c cs ih =>
    intro s h
    exact ih _ (detectorsOK_step icc s c.1 c.2.1 c.2.2 h)

theorem detectorsOK_start (occ osr icc isr : ℕ) :
    DetectorsOK icc (start (initHfpState occ osr icc isr)) := by
  refine ⟨rfl, rfl, List.replicate icc 0, rfl, ?_⟩
  intro y hy
  rw [List.eq_of_mem_replicate hy]

theorem onBoth_ended_output (s : HfpState) (inputData : List ℚ) (M N : ℕ)
    (hl : s.loopPlayback = false)
    (hp : s.playbackNumFrames ≤ s.playbackPosition) :
    (onBothStreamsReadyFloat s inputData M N).1
      = List.replicate N (silenceFrame s.outputChannelCount) := by
  unfold onBothStreamsReadyFloat
  split
  · rfl
  · rw [hl, playLoop_ended s.playbackBuffer s.playbackNumFrames
      s.playbackChannelCount s.outputChannelCount s.playbackPosition N hp]

theorem onBoth_ended_position (s : HfpState) (inputData : List ℚ) (M N : ℕ)
    (hl : s.loopPlayback = false)
    (hp : s.playbackNumFrames ≤ s.playbackPosition) :
    (onBothStreamsReadyFloat s inputData M N).2.playbackPosition
      = s.playbackPosition := by
  unfold onBothStreamsReadyFloat processInputPhase
  split
  · rfl
  · rw [hl, playLoop_ended s.playbackBuffer s.playbackNumFrames
      s.playbackChannelCount s.outputChannelCount s.playbackPosition N hp]

theorem endedOK_step (s0 s : HfpState) (inputData : List ℚ) (M N : ℕ)
    (h : EndedOK s0 s) :
    EndedOK s0 (onBothStreamsReadyFloat s inputData M N).2 := by
  obtain ⟨hl, hp, hpe, hfe, hbe, hoe⟩ := h
  obtain ⟨h1, -, -, h4, h5, h6, -⟩ := onBoth_const s inputData M N
  have hpos := onBoth_ended_position s inputData M N hl hp
  exact ⟨h4.trans hl, by rw [h6, hpos]; exact hp, hpos.trans hpe,
    h6.trans hfe, h5.trans hbe, h1.trans hoe⟩

theorem endedOK_run (s0 : HfpState) :
    ∀ (cs : List (List ℚ × ℕ × ℕ)) (s : HfpState), EndedOK s0 s →
      EndedOK s0 (runCallbacks s cs) := by
  intro cs
  induction cs with
  | nil => intro s h; exact h
  | cons c cs ih =>
    intro s h
    exact ih _ (endedOK_step s0 s c.1 c.2.1 c.2.2 h)

/-- Claim C4: after `start()` on a 2-channel/48000 Hz output and
2-channel/48000 Hz input session, loading a 10-frame 1-channel clip of
constant value `1/2` with loop enabled and then requesting 25 output
frames in one `onBothStreamsReadyFloat` call yields 25 output frames each
equal to `[1/2, 1/2]`, leaves the playback cursor at 5, and leaves
`playedFrameCount` equal to 25. -/
theorem claim4_end_to_end :
    (onBothStreamsReadyFloat c4Loaded [] 0 25).1
        = List.replicate 25 [(1/2 : ℚ), (1/2 : ℚ)] ∧
    (onBothStreamsReadyFloat c4Loaded [] 0 25).2.playbackPosition = 5 ∧
    (onBothStreamsReadyFloat c4Loaded [] 0 25).2.playedFrameCount = 25 := by
  exact ⟨rfl, rfl, rfl⟩

/-- Claim C5: if no clip is loaded (empty sample buffer or zero frame
count), every output frame produced by `onBothStreamsReadyFloat` is
all-zero samples, for every requested output frame count. -/
theorem claim5_silence_invariant (s : HfpState) (inputData : List ℚ)
    (M N : ℕ) (h : s.playbackBuffer = [] ∨ s.playbackNumFrames = 0) :
    (onBothStreamsReadyFloat s inputData M N).1
      = List.replicate N (List.replicate s.outputChannelCount (0 : ℚ)) := by
  unfold onBothStreamsReadyFloat
  rw [if_pos h]
  rfl

theorem claim5_witness :
    (startedStereo.playbackBuffer = []
        ∨ startedStereo.playbackNumFrames = 0) ∧
    (onBothStreamsReadyFloat startedStereo [] 0 2).1
      = List.replicate 2 (List.replicate 2 (0 : ℚ)) :=
  ⟨by decide, claim5_silence_invariant startedStereo [] 0 2 (by decide)⟩

/-- Claim C10: loop playback is enabled by default: a freshly constructed
`FullDuplexHfpLoopback` has `mLoopPlayback = true`, it is still `true`
after `start()` and `loadAudioData` (with `setLoopPlayback` never called),
and a loaded 2-frame clip `[3, 7]` then wraps back to frame 0 in a
3-frame request instead of ending in silence. -/
theorem claim10_loop_default (occ osr icc isr : ℕ) :
    (initHfpState occ osr icc isr).loopPlayback = true ∧
    monoClipState.loopPlayback = true ∧
    (onBothStreamsReadyFloat monoClipState [] 0 3).1
      = [[3], [7], [3]] := by
  exact ⟨rfl, by decide, by decide⟩

/-- Claim C1 (counterexample): with no clip loaded, a callback asked for
`N = 3` output frames emits 3 silence frames but leaves
`playedFrameCount` at 0, so the counter does not increase by `N` when the
output frames are silence. -/
theorem claim1_counterexample :
    (startedStereo.playbackBuffer = []
        ∨ startedStereo.playbackNumFrames = 0) ∧
    startedStereo.playedFrameCount = 0 ∧
    (onBothStreamsReadyFloat startedStereo [] 0 3).1.length = 3 ∧
    (onBothStreamsReadyFloat startedStereo [] 0 3).2.playedFrameCount
        = 0 ∧
    (0 : ℕ) ≠ 0 + 3 := by
  decide

/-- Claim C1 (amended): per invocation, `recordedFrameCount` increases by
exactly `M`; `playedFrameCount` is non-decreasing and increases by at most
`N` — by exactly `N` when a clip is loaded and loop playback is enabled,
but not when silence frames are emitted, since those do not bump the
counter. -/
theorem claim1_counters_law (s : HfpState) (inputData : List ℚ)
    (M N : ℕ) :
    (onBothStreamsReadyFloat s inputData M N).2.recordedFrameCount
        = s.recordedFrameCount + M ∧
    s.playedFrameCount
        ≤ (onBothStreamsReadyFloat s inputData M N).2.playedFrameCount ∧
    (onBothStreamsReadyFloat s inputData M N).2.playedFrameCount
        ≤ s.playedFrameCount + N ∧
    s.recordedFrameCount
        ≤ (onBothStreamsReadyFloat s inputData M N).2.recordedFrameCount ∧
    (s.playbackBuffer ≠ [] → s.playbackNumFrames ≠ 0 →
      s.loopPlayback = true →
      (onBothStreamsReadyFloat s inputData M N).2.playedFrameCount
        = s.playedFrameCount + N) := by
  refine ⟨onBoth_recordedFrameCount s inputData M N,
    (onBoth_played_mono s inputData M N).1,
    (onBoth_played_mono s inputData M N).2,
    ?_, ?_⟩
  · rw [onBoth_recordedFrameCount s inputData M N]
    exact Nat.le_add_right _ _
  · intro hb hf hl
    rw [onBoth_playedFrameCount_clip s inputData M N hb hf, hl,
      playLoop_played_loopT]

theorem claim1_witness :
    c4Loaded.playbackBuffer ≠ [] ∧ c4Loaded.playbackNumFrames ≠ 0 ∧
    c4Loaded.loopPlayback = true ∧
    (onBothStreamsReadyFloat c4Loaded [] 3 25).2.recordedFrameCount
        = c4Loaded.recordedFrameCount + 3 ∧
    (onBothStreamsReadyFloat c4Loaded [] 3 25).2.playedFrameCount
        = c4Loaded.playedFrameCount + 25 :=
  ⟨by decide, by decide, by decide,
   (claim1_counters_law c4Loaded [] 3 25).1,
   (claim1_counters_law c4Loaded [] 3 25).2.2.2.2
     (by decide) (by decide) (by decide)⟩

/-- Claim C2 (counterexample): with a 1-frame clip and loop playback
disabled, a 3-frame request emits the clip frame followed by two
silence-fill frames, but only the clip frame is appended to the "played"
recording — the silence frames are zero-filled by `memset` without a
`write` call, so the recording does not reflect them. -/
theorem claim2_counterexample :
    (onBothStreamsReadyFloat noLoopClipState [] 0 3).1
        = [[1], [0], [0]] ∧
    (onBothStreamsReadyFloat noLoopClipState [] 0 3).2.playedRecording
        = some [[1]] ∧
    [(0 : ℚ)] ∉ [[(1 : ℚ)]] := by
  decide

/-- Claim C2 (amended): only frames copied from the clip are appended to
the "played" recording; silence-fill frames are not appended (with no
clip loaded the recording is unchanged).  When a clip is loaded and loop
playback is enabled, every emitted frame comes from the clip, so the
recording then reflects exactly what was emitted. -/
theorem claim2_played_recording (s : HfpState) (inputData : List ℚ)
    (M N : ℕ) :
    ((s.playbackBuffer = [] ∨ s.playbackNumFrames = 0) →
      (onBothStreamsReadyFloat s inputData M N).2.playedRecording
        = s.playedRecording) ∧
    (s.playbackBuffer ≠ [] → s.playbackNumFrames ≠ 0 →
      s.loopPlayback = true →
      (onBothStreamsReadyFloat s inputData M N).2.playedRecording
        = s.playedRecording.map
            (recordingWrite · (onBothStreamsReadyFloat s inputData M N).1)) := by
  constructor
  · intro h
    unfold onBothStreamsReadyFloat processInputPhase
    rw [if_pos h]
  · intro hb hf hl
    unfold onBothStreamsReadyFloat processInputPhase
    rw [if_neg (by simp [hb, hf]), hl]
    simp [playLoop_recorded_loopT]

theorem claim2_witness :
    c4Loaded.playbackBuffer ≠ [] ∧ c4Loaded.playbackNumFrames ≠ 0 ∧
    c4Loaded.loopPlayback = true ∧
    (onBothStreamsReadyFloat c4Loaded [] 0 25).2.playedRecording
      = c4Loaded.playedRecording.map
          (recordingWrite · (onBothStreamsReadyFloat c4Loaded [] 0 25).1) :=
  ⟨by decide, by decide, by decide,
   (claim2_played_recording c4Loaded [] 0 25).2
     (by decide) (by decide) (by decide)⟩

/-- Claim C3 (counterexample): for a loaded 2-frame clip with loop
playback enabled and cursor 0, a single callback producing exactly
`1 * F = 2` output frames leaves the playback cursor at `F = 2`, not 0 —
the wrap to 0 is deferred to the start of the next frame production. -/
theorem claim3_counterexample :
    monoClipState.playbackNumFrames = 2 ∧
    monoClipState.loopPlayback = true ∧
    monoClipState.playbackPosition = 0 ∧
    (onBothStreamsReadyFloat monoClipState [] 0 2).2.playbackPosition
        = 2 ∧
    (2 : ℕ) ≠ 0 := by
  decide

/-- Claim C3 (amended): for a loaded clip of `F ≥ 1` frames with loop
playback enabled and cursor 0, a callback producing `n ≥ 1` output frames
leaves the cursor at `(n - 1) mod F + 1` — the per-frame cursor values
cycle with period `F` through `1, …, F`, a request longer than `F` wraps
within the request, and after exactly `k * F` frames the cursor equals
`F` (it wraps to 0 lazily at the start of the next produced frame), not
0. -/
theorem claim3_cursor_law (s : HfpState) (inputData : List ℚ)
    (M n k : ℕ) (hb : s.playbackBuffer ≠ [])
    (hf : 1 ≤ s.playbackNumFrames) (hl : s.loopPlayback = true)
    (hp : s.playbackPosition = 0) (hn : 1 ≤ n) :
    (onBothStreamsReadyFloat s inputData M n).2.playbackPosition
        = (n - 1) % s.playbackNumFrames + 1 ∧
    (n = k * s.playbackNumFrames →
      (onBothStreamsReadyFloat s inputData M n).2.playbackPosition
        = s.playbackNumFrames) := by
  have hfz : s.playbackNumFrames ≠ 0 := by omega
  obtain ⟨m, rfl⟩ : ∃ m, n = m + 1 := ⟨n - 1, by omega⟩
  have hmain : (onBothStreamsReadyFloat s inputData M (m + 1)).2.playbackPosition
      = (m + 1 - 1) % s.playbackNumFrames + 1 := by
    rw [onBoth_position_clip s inputData M (m + 1) hb hfz, hl, hp,
      playLoop_pos_formula s.playbackBuffer s.playbackNumFrames
        s.playbackChannelCount s.outputChannelCount hf m 0 (Nat.zero_le _)]
    simp
  refine ⟨hmain, ?_⟩
  intro hk
  rw [hmain]
  obtain ⟨j, rfl⟩ : ∃ j, k = j + 1 := by
    refine ⟨k - 1, ?_⟩
    rcases Nat.eq_zero_or_pos k with h0 | h1
    · subst h0
      rw [Nat.zero_mul] at hk
      omega
    · omega
  have h2 : m + 1 - 1 = (s.playbackNumFrames - 1) + j * s.playbackNumFrames := by
    have := hk
    rw [Nat.add_mul, Nat.one_mul] at this
    omega
  rw [h2, Nat.add_mul_mod_self_right,
    Nat.mod_eq_of_lt (by omega : s.playbackNumFrames - 1 < s.playbackNumFrames)]
  omega

theorem claim3_witness :
    monoClipState.playbackBuffer ≠ [] ∧
    1 ≤ monoClipState.playbackNumFrames ∧
    monoClipState.loopPlayback = true ∧
    monoClipState.playbackPosition = 0 ∧
    (4 : ℕ) = 2 * monoClipState.playbackNumFrames ∧
    (onBothStreamsReadyFloat monoClipState [] 0 4).2.playbackPosition
        = monoClipState.playbackNumFrames :=
  ⟨by decide, by decide, by decide, by decide, by decide,
   (claim3_cursor_law monoClipState [] 0 4 2 (by decide) (by decide)
     (by decide) (by decide) (by decide)).2 (by decide)⟩

/-- Claim C7: with loop playback disabled, once the cursor has reached
the clip's frame count it never advances across any later sequence of
callback invocations, every output frame produced by a later invocation
is silence, and a successful `loadAudioData` call resets the cursor
to 0. -/
theorem claim7_no_loop_ended (s : HfpState)
    (cs : List (List ℚ × ℕ × ℕ)) (inputData : List ℚ) (M N : ℕ)
    (data : List ℚ) (nf cc sr : ℤ)
    (hl : s.loopPlayback = false)
    (hp : s.playbackNumFrames ≤ s.playbackPosition) :
    (runCallbacks s cs).playbackPosition = s.playbackPosition ∧
    (runCallbacks s cs).playbackNumFrames = s.playbackNumFrames ∧
    (runCallbacks s cs).loopPlayback = false ∧
    (onBothStreamsReadyFloat (runCallbacks s cs) inputData M N).1
      = List.replicate N (List.replicate s.outputChannelCount (0 : ℚ)) ∧
    (0 < nf → 0 < cc →
      (loadAudioData (runCallbacks s cs) (some data) nf cc sr).2.playbackPosition
        = 0) := by
  have h := endedOK_run s cs s ⟨hl, hp, rfl, rfl, rfl, rfl⟩
  obtain ⟨hl2, hp2, hpe, hfe, _hbe, hoe⟩ := h
  refine ⟨hpe, hfe, hl2, ?_, ?_⟩
  · rw [onBoth_ended_output (runCallbacks s cs) inputData M N hl2 hp2, hoe]
    rfl
  · intro hnf hcc
    unfold loadAudioData
    rw [if_neg (by simp; omega)]

theorem claim7_witness :
    endedState.loopPlayback = false ∧
    endedState.playbackNumFrames ≤ endedState.playbackPosition ∧
    (runCallbacks endedState [([5], 1, 2)]).playbackPosition
        = endedState.playbackPosition ∧
    (onBothStreamsReadyFloat (runCallbacks endedState [([5], 1, 2)])
        [] 0 2).1
      = List.replicate 2 (List.replicate 1 (0 : ℚ)) ∧
    (loadAudioData (runCallbacks endedState [([5], 1, 2)])
        (some [2, 4]) 2 1 48000).2.playbackPosition = 0 :=
  ⟨by decide, by decide,
   (claim7_no_loop_ended endedState [([5], 1, 2)] [] 0 2 [2, 4] 2 1 48000
     (by decide) (by decide)).1,
   (claim7_no_loop_ended endedState [([5], 1, 2)] [] 0 2 [2, 4] 2 1 48000
     (by decide) (by decide)).2.2.2.1,
   (claim7_no_loop_ended endedState [([5], 1, 2)] [] 0 2 [2, 4] 2 1 48000
     (by decide) (by decide)).2.2.2.2 (by decide) (by decide)⟩

/-- Claim C6: each frame produced while the cursor is within clip bounds
is the channel-converted copy of the current source frame — the first
frame the playback loop produces from an in-bounds cursor is
`frameFromClip`, whose destination channel `c` reads source channel
`c mod sourceChannelCount`; for a 1-channel clip every output channel
receives the mono sample of the current frame. -/
theorem claim6_channel_conversion (buf : List ℚ) (cC outCh pos c : ℕ)
    (hc : c < outCh) :
    (∀ nF loop n, pos < nF →
      (playLoop buf nF cC outCh loop pos (n + 1)).frames.getD 0 []
        = frameFromClip buf cC outCh pos) ∧
    (frameFromClip buf cC outCh pos).getD c 0
        = buf.getD (pos * cC + c % cC) 0 ∧
    (cC = 1 →
      (frameFromClip buf cC outCh pos).getD c 0 = buf.getD pos 0) := by
  have hchan : (frameFromClip buf cC outCh pos).getD c 0
      = buf.getD (pos * cC + c % cC) 0 := by
    unfold frameFromClip
    rw [List.getD_eq_getElem?_getD, List.getElem?_map, List.getElem?_range hc]
    rfl
  refine ⟨?_, hchan, ?_⟩
  · intro nF loop n hpos
    simp [playLoop, hpos]
  · intro h1
    rw [hchan, h1, Nat.mod_one, Nat.mul_one, Nat.add_zero]

theorem claim6_witness :
    (1 : ℕ) < 2 ∧
    (frameFromClip [3, 7] 1 2 1).getD 1 0
      = ([3, 7] : List ℚ).getD (1 * 1 + 1 % 1) 0 ∧
    (frameFromClip [3, 7] 1 2 1).getD 1 0 = ([3, 7] : List ℚ).getD 1 0 :=
  ⟨by decide,
   (claim6_channel_conversion [3, 7] 1 2 1 1 (by decide)).2.1,
   (claim6_channel_conversion [3, 7] 1 2 1 1 (by decide)).2.2 rfl⟩

/-- Claim C8: `getPeakLevel` before `start()` returns the "not started"
sentinel `-1.0`; after `start()` (and any sequence of callbacks),
`getPeakLevel (-1)` and `getPeakLevel inputChannelCount` both return the
"out of range" sentinel `-2.0`, which is distinct from `-1.0`; and every
index in `[0, inputChannelCount)` returns the channel's current
non-negative peak estimate. -/
theorem claim8_peak_level_sentinels (occ osr icc isr : ℕ)
    (cs : List (List ℚ × ℕ × ℕ)) (idx : ℤ) :
    getPeakLevel (initHfpState occ osr icc isr) idx = -1 ∧
    getPeakLevel (runCallbacks (start (initHfpState occ osr icc isr)) cs)
        (-1) = -2 ∧
    getPeakLevel (runCallbacks (start (initHfpState occ osr icc isr)) cs)
        (icc : ℤ) = -2 ∧
    ((-2 : ℚ) ≠ (-1 : ℚ)) ∧
    (∀ i : ℕ, i < icc →
      0 ≤ getPeakLevel (runCallbacks (start (initHfpState occ osr icc isr)) cs)
            (i : ℤ)) := by
  obtain ⟨hn, -, ls, hls, hnn⟩ :=
    detectorsOK_run icc cs _ (detectorsOK_start occ osr icc isr)
  refine ⟨rfl, ?_, ?_, by norm_num, ?_⟩
  · unfold getPeakLevel
    rw [hls]
    norm_num
  · unfold getPeakLevel
    rw [hls, hn]
    simp
  · intro i hi
    unfold getPeakLevel
    rw [hls, hn]
    show 0 ≤ if (i : ℤ) < 0 ∨ (icc : ℤ) ≤ (i : ℤ) then -2
      else ls.getD ((i : ℤ)).toNat 0
    rw [if_neg (by push_neg; exact ⟨by positivity, by exact_mod_cast hi⟩)]
    exact getD_nonneg ls _ hnn

theorem claim8_witness :
    (1 : ℕ) < 2 ∧
    0 ≤ getPeakLevel
          (runCallbacks (start (initHfpState 2 48000 2 48000))
            [([1, 2], 1, 0)]) ((1 : ℕ) : ℤ) :=
  ⟨by decide,
   (claim8_peak_level_sentinels 2 48000 2 48000 [([1, 2], 1, 0)] 0).2.2.2.2
     1 (by decide)⟩

/-- Claim C9: `loadAudioData` with a null sample pointer or non-positive
frame/channel count returns the negative code `-1` and leaves the state
untouched; with valid arguments (and a sample list of the declared size)
it replaces the playback clip with a copy of the given samples, resets
the cursor to 0, and returns 0 — counters, loop flag, recordings and
detectors all keep their previous values, as recorded by the other fields
of the returned record update. -/
theorem claim9_load_audio_data (s : HfpState) (data : List ℚ)
    (nf cc sr : ℤ) :
    (∀ a, (a = none ∨ nf ≤ 0 ∨ cc ≤ 0) →
      loadAudioData s a nf cc sr = (-1, s)) ∧
    (0 < nf → 0 < cc → data.length = nf.toNat * cc.toNat →
      loadAudioData s (some data) nf cc sr =
        (0, { s with
          playbackBuffer := data
          playbackNumFrames := nf.toNat
          playbackChannelCount := cc.toNat
          playbackSampleRate := sr
          playbackPosition := 0 })) := by
  constructor
  · intro a h
    unfold loadAudioData
    rw [if_pos h]
  · intro hnf hcc hlen
    unfold loadAudioData
    rw [if_neg (by simp; omega)]
    have hbuf : (List.range (nf.toNat * cc.toNat)).map
        (fun i => ((some data).getD []).getD i 0) = data := by
      rw [← hlen]
      exact map_range_getD data
    simp only [hbuf]

theorem claim9_witness :
    loadAudioData (initHfpState 2 48000 2 48000) none 5 1 48000
        = (-1, initHfpState 2 48000 2 48000) ∧
    loadAudioData (initHfpState 2 48000 2 48000) (some [2, 4]) 2 1 48000
        = (0, { initHfpState 2 48000 2 48000 with
            playbackBuffer := [2, 4]
            playbackNumFrames := 2
            playbackChannelCount := 1
            playbackSampleRate := 48000
            playbackPosition := 0 }) :=
  ⟨(claim9_load_audio_data (initHfpState 2 48000 2 48000) [] 5 1 48000).1
     none (Or.inl rfl),
   (claim9_load_audio_data (initHfpState 2 48000 2 48000) [2, 4] 2 1
     48000).2 (by decide) (by decide) (by decide)⟩

end FullDuplexHfpLoopback
